import Mathlib

/-
Verification of the `coinflip_battle_move::game` Move module
(src/coinflip_battle_move/sources/coinflip_battle_move.move) and of the
relay loop of src/coinflip_battle/src/services/backendService.ts.

Shallow embedding conventions:
  * addresses, object ids and u64 amounts are `Nat`; Move aborts on u64
    overflow/underflow, which we model with an explicit `2 ^ 64` guard
    where an addition occurs (`E_FRAMEWORK_ABORT`);
  * an aborting entry function is `Except MoveErr _`; an `.error` result
    models a transaction abort, i.e. no state change at all;
  * `claim_reward` and `cancel_room` consume the `FlipGame` and
    `GameEscrow` objects (`object::delete`): their `.ok` results carry
    only the transfers performed, and neither object survives.
-/

namespace Game

/-- Abort reasons: the `E_...` u64 constants of the module, plus
`E_FRAMEWORK_ABORT` for aborts raised inside the Sui framework
(`option::fill` on a filled option, `coin::split` with insufficient
balance, u64 arithmetic overflow/underflow). -/
inductive MoveErr where
  | E_INVALID_MAX_PLAYERS
  | E_WRONG_AMOUNT
  | E_GAME_FULL
  | E_ALREADY_JOINED
  | E_GAME_STARTED
  | E_GAME_NOT_STARTED
  | E_NOT_CREATOR
  | E_NOT_WINNER
  | E_MIN_STAKE
  | E_TOO_EARLY
  | E_ALREADY_CLAIMED
  | E_BLOB_ALREADY_SET
  | E_BLOB_NOT_SET
  | E_INVALID_SEAL_ID
  | E_WINNER_NOT_SET
  | E_FRAMEWORK_ABORT
  deriving DecidableEq, Repr

/-- `const MIN_PLAYERS: u8 = 2`. -/
def MIN_PLAYERS : Nat := 2

/-- `const MAX_PLAYERS: u8 = 10`. -/
def MAX_PLAYERS : Nat := 10

/-- `const MIN_STAKE_AMOUNT: u64 = 1000000` (0.001 SUI). -/
def MIN_STAKE_AMOUNT : Nat := 1000000

/-- `const LOCK_DURATION_MS: u64 = 5000` (5 seconds). -/
def LOCK_DURATION_MS : Nat := 5000

/-- `const SIDE_HEADS: u8 = 0`. -/
def SIDE_HEADS : Nat := 0

/-- `const SIDE_TAILS: u8 = 1`. -/
def SIDE_TAILS : Nat := 1

/-- Bound of the u64 type; Move aborts when an addition reaches it. -/
def U64_MOD : Nat := 2 ^ 64

/-- The shared `FlipGame` room object. -/
structure FlipGame where
  id : Nat
  creator : Nat
  max_players : Nat
  players : List Nat
  player_sides : List Nat
  stake_per_player : Nat
  total_stake : Nat
  unlock_ms : Nat
  blob_id : Option (List Nat)
  winner : Option Nat
  game_started : Bool
  claimed : Bool
  created_at : Nat
  deriving DecidableEq, Repr

/-- The shared `GameEscrow` object; `funds` is the value of its
`Coin<SUI>`. -/
structure GameEscrow where
  id : Nat
  game_id : Nat
  funds : Nat
  deriving DecidableEq, Repr

/-- The `GameFull` event emitted when a join fills the room. -/
structure GameFull where
  game_id : Nat
  players : List Nat
  total_stake : Nat
  unlock_ms : Nat
  deriving DecidableEq, Repr

/-- Result of a successful `claim_reward`: the escrowed coin (of value
`paid`, the whole escrow balance) is transferred to `recipient`, and the
`RewardClaimed` event carries `event_amount = total_stake`. Both objects
are deleted. -/
structure ClaimOutcome where
  recipient : Nat
  paid : Nat
  event_amount : Nat
  claimed_at : Nat
  deriving DecidableEq, Repr

/-- `create_room(max_players, side, payment, clock, ctx)`. The fresh
object ids drawn from `ctx` are passed in as `game_id` / `escrow_id`;
`payment` is the coin's value, `sender` the transaction sender and `now`
the clock reading. -/
def create_room (max_players side payment sender now game_id escrow_id : Nat) :
    Except MoveErr (FlipGame × GameEscrow) :=
  if MIN_PLAYERS ≤ max_players ∧ max_players ≤ MAX_PLAYERS then
    if side = SIDE_HEADS ∨ side = SIDE_TAILS then
      if MIN_STAKE_AMOUNT ≤ payment then
        .ok ({ id := game_id
               creator := sender
               max_players := max_players
               players := [sender]
               player_sides := [side]
               stake_per_player := payment
               total_stake := payment
               unlock_ms := 0
               blob_id := none
               winner := none
               game_started := false
               claimed := false
               created_at := now },
             { id := escrow_id, game_id := game_id, funds := payment })
      else .error .E_MIN_STAKE
    else .error .E_WRONG_AMOUNT
  else .error .E_INVALID_MAX_PLAYERS

/-- `join_room(game, escrow, side, payment, clock, ctx)`. The asserts
appear in source order; `game.players.length + 1` is the `new_count`
taken after the push. On fill the room starts, `unlock_ms` is set and
the `GameFull` event is emitted. -/
def join_room (game : FlipGame) (escrow : GameEscrow) (side payment sender now : Nat) :
    Except MoveErr (FlipGame × GameEscrow × Option GameFull) :=
  if game.game_started then .error .E_GAME_STARTED
  else if game.max_players ≤ game.players.length then .error .E_GAME_FULL
  else if sender ∈ game.players then .error .E_ALREADY_JOINED
  else if payment ≠ game.stake_per_player then .error .E_WRONG_AMOUNT
  else if game.id ≠ escrow.game_id then .error .E_WRONG_AMOUNT
  else if side ≠ SIDE_HEADS ∧ side ≠ SIDE_TAILS then .error .E_WRONG_AMOUNT
  else if U64_MOD ≤ game.total_stake + game.stake_per_player then .error .E_FRAMEWORK_ABORT
  else if U64_MOD ≤ escrow.funds + payment then .error .E_FRAMEWORK_ABORT
  else if game.players.length + 1 = game.max_players then
    if U64_MOD ≤ now + LOCK_DURATION_MS then .error .E_FRAMEWORK_ABORT
    else
      .ok ({ game with
               players := game.players ++ [sender]
               player_sides := game.player_sides ++ [side]
               total_stake := game.total_stake + game.stake_per_player
               game_started := true
               unlock_ms := now + LOCK_DURATION_MS },
           { escrow with funds := escrow.funds + payment },
           some { game_id := game.id
                  players := game.players ++ [sender]
                  total_stake := game.total_stake + game.stake_per_player
                  unlock_ms := now + LOCK_DURATION_MS })
  else
    .ok ({ game with
             players := game.players ++ [sender]
             player_sides := game.player_sides ++ [side]
             total_stake := game.total_stake + game.stake_per_player },
         { escrow with funds := escrow.funds + payment },
         none)

/-- `set_winner(game, winner, blob_id)`: backend records the winner and
the Walrus blob id. `option::fill` on an already-filled `blob_id` (never
reachable) aborts inside the framework. -/
def set_winner (game : FlipGame) (winner : Nat) (blob_id : List Nat) :
    Except MoveErr FlipGame :=
  if game.game_started = false then .error .E_GAME_NOT_STARTED
  else if game.winner.isSome then .error .E_BLOB_ALREADY_SET
  else if winner ∉ game.players then .error .E_NOT_WINNER
  else if blob_id.length = 0 then .error .E_BLOB_NOT_SET
  else if game.blob_id.isSome then .error .E_FRAMEWORK_ABORT
  else .ok { game with winner := some winner, blob_id := some blob_id }

/-- `claim_reward(game, escrow, clock, ctx)`: consumes both objects,
transfers the whole escrowed coin to the recorded winner. -/
def claim_reward (game : FlipGame) (escrow : GameEscrow) (sender now : Nat) :
    Except MoveErr ClaimOutcome :=
  if game.game_started = false then .error .E_GAME_NOT_STARTED
  else
    match game.winner with
    | none => .error .E_WINNER_NOT_SET
    | some winner =>
      if now < game.unlock_ms then .error .E_TOO_EARLY
      else if game.claimed then .error .E_ALREADY_CLAIMED
      else if sender ≠ winner then .error .E_NOT_WINNER
      else if game.id ≠ escrow.game_id then .error .E_WRONG_AMOUNT
      else .ok { recipient := winner
                 paid := escrow.funds
                 event_amount := game.total_stake
                 claimed_at := now }

/-- The refund `while` loop of `cancel_room`: every player but the last
receives a `coin::split` of `stake` (aborting if the remaining balance
is short), the last player receives the remaining coin. An empty player
list makes `num_players - 1` underflow, a framework abort. Returns the
list of (recipient, amount) transfers. -/
def refund_loop (players : List Nat) (stake funds : Nat) :
    Except MoveErr (List (Nat × Nat)) :=
  match players with
  | [] => .error .E_FRAMEWORK_ABORT
  | [p] => .ok [(p, funds)]
  | p :: q :: rest =>
      if funds < stake then .error .E_FRAMEWORK_ABORT
      else
        match refund_loop (q :: rest) stake (funds - stake) with
        | .ok tr => .ok ((p, stake) :: tr)
        | .error err => .error err

/-- `cancel_room(game, escrow, ctx)`: only the creator, only before the
game starts; consumes both objects and refunds every player. -/
def cancel_room (game : FlipGame) (escrow : GameEscrow) (sender : Nat) :
    Except MoveErr (List (Nat × Nat)) :=
  if sender ≠ game.creator then .error .E_NOT_CREATOR
  else if game.game_started then .error .E_GAME_STARTED
  else refund_loop game.players game.stake_per_player escrow.funds

/-- BCS serialization of a u64: eight bytes, little-endian
(`sui::bcs::to_bytes` on `game.unlock_ms`). -/
def bcs_u64 (n : Nat) : List Nat :=
  [n % 256, n / 256 % 256, n / 256 ^ 2 % 256, n / 256 ^ 3 % 256,
   n / 256 ^ 4 % 256, n / 256 ^ 5 % 256, n / 256 ^ 6 % 256, n / 256 ^ 7 % 256]

/-- The byte-comparison `while` loop of `seal_approve`, applied to the
final `unlock_bytes.length` bytes of `id` against `unlock_bytes`,
aborting at the first mismatch. -/
def seal_check_loop : List Nat → List Nat → Except MoveErr Unit
  | a :: moreA, b :: moreB =>
      if a = b then seal_check_loop moreA moreB else .error .E_INVALID_SEAL_ID
  | _, _ => .ok ()

/-- `seal_approve(id, game, clock)`: pure check (no state is touched)
that the suffix of `id` equals `bcs(game.unlock_ms)` and that the clock
has passed `unlock_ms`. -/
def seal_approve (id : List Nat) (game : FlipGame) (now : Nat) :
    Except MoveErr Unit :=
  if id.length < (bcs_u64 game.unlock_ms).length then .error .E_INVALID_SEAL_ID
  else
    match seal_check_loop (id.drop (id.length - (bcs_u64 game.unlock_ms).length))
        (bcs_u64 game.unlock_ms) with
    | .error err => .error err
    | .ok _ => if now < game.unlock_ms then .error .E_TOO_EARLY else .ok ()

/-- In-memory state of the relay loop of `startEventListener`
(backendService.ts): the `processedGames` set. -/
structure RelayState where
  processed : List Nat
  deriving DecidableEq, Repr

/-- Handling of one `GameFull` event inside the poll loop of
`startEventListener`: skip ids already in `processed`; if the on-chain
`winner` field is already set, mark processed without submitting;
otherwise attempt `processFullGame` (encrypt, upload, submit
`set_winner`) — `submit_ok` abstracts whether that attempt returned
non-null — and mark the room processed only on success. The returned
`Bool` is true exactly when a submission attempt was made. -/
def relay_handle_event (st : RelayState) (game_id : Nat)
    (winner_set submit_ok : Bool) : RelayState × Bool :=
  if game_id ∈ st.processed then (st, false)
  else if winner_set then ({ processed := game_id :: st.processed }, false)
  else if submit_ok then ({ processed := game_id :: st.processed }, true)
  else (st, true)

/-- Room/escrow pairs reachable from `create_room` by successful
mutating operations (`join_room`, `set_winner`); `claim_reward` and
`cancel_room` destroy both objects and so produce no new state. -/
inductive Reachable : FlipGame → GameEscrow → Prop where
  | created : ∀ maxp side payment sender now gid eid g e,
      create_room maxp side payment sender now gid eid = .ok (g, e) →
      Reachable g e
  | joined : ∀ g e side payment sender now g' e' ev,
      Reachable g e →
      join_room g e side payment sender now = .ok (g', e', ev) →
      Reachable g' e'
  | winner_recorded : ∀ g e w b g',
      Reachable g e →
      set_winner g w b = .ok g' →
      Reachable g' e

/-- State invariant of every reachable room/escrow pair. -/
structure Inv (g : FlipGame) (e : GameEscrow) : Prop where
  len_eq : g.players.length = g.player_sides.length
  len_le : g.players.length ≤ g.max_players
  len_pos : 1 ≤ g.players.length
  total : g.total_stake = g.stake_per_player * g.players.length
  funds : e.funds = g.total_stake
  bound : e.game_id = g.id
  nodup : g.players.Nodup
  not_claimed : g.claimed = false
  not_started_lt : g.game_started = false →
    g.players.length < g.max_players ∧ g.unlock_ms = 0
  started_full : g.game_started = true → g.players.length = g.max_players
  winner_started : g.winner.isSome → g.game_started = true
  winner_blob : g.winner.isSome = g.blob_id.isSome
  maxp_range : MIN_PLAYERS ≤ g.max_players ∧ g.max_players ≤ MAX_PLAYERS
  stake_min : MIN_STAKE_AMOUNT ≤ g.stake_per_player
  winner_mem : ∀ w, g.winner = some w → w ∈ g.players

/-- Room produced by `create_room 2 heads 1_000_000_000` from sender 10
at clock 100 (fresh ids 1, 2). -/
def demo_g0 : FlipGame :=
  { id := 1, creator := 10, max_players := 2, players := [10]
    player_sides := [0], stake_per_player := 1000000000
    total_stake := 1000000000, unlock_ms := 0, blob_id := none
    winner := none, game_started := false, claimed := false
    created_at := 100 }

/-- Escrow paired with `demo_g0`. -/
def demo_e0 : GameEscrow := { id := 2, game_id := 1, funds := 1000000000 }

/-- `demo_g0` after player 11 joins with tails at clock 200: full, so
started with `unlock_ms = 5200`. -/
def demo_g1 : FlipGame :=
  { id := 1, creator := 10, max_players := 2, players := [10, 11]
    player_sides := [0, 1], stake_per_player := 1000000000
    total_stake := 2000000000, unlock_ms := 5200, blob_id := none
    winner := none, game_started := true, claimed := false
    created_at := 100 }

/-- Escrow after the fill join: holds both stakes. -/
def demo_e1 : GameEscrow := { id := 2, game_id := 1, funds := 2000000000 }

/-- `demo_g1` after the backend records winner 11 with blob `[7]`. -/
def demo_g2 : FlipGame :=
  { demo_g1 with winner := some 11, blob_id := some [7] }

/-- A capacity-3 room created by 10 at clock 100 (fresh ids 5, 6),
stake 1_000_000_000, heads. -/
def demoC_g0 : FlipGame :=
  { id := 5, creator := 10, max_players := 3, players := [10]
    player_sides := [0], stake_per_player := 1000000000
    total_stake := 1000000000, unlock_ms := 0, blob_id := none
    winner := none, game_started := false, claimed := false
    created_at := 100 }

/-- Escrow paired with `demoC_g0`. -/
def demoC_e0 : GameEscrow := { id := 6, game_id := 5, funds := 1000000000 }

/-- `demoC_g0` after player 11 joins (2 of 3 members: still waiting). -/
def demoC_g1 : FlipGame :=
  { demoC_g0 with
      players := [10, 11]
      player_sides := [0, 1]
      total_stake := 2000000000 }

/-- Escrow paired with `demoC_g1`. -/
def demoC_e1 : GameEscrow := { demoC_e0 with funds := 2000000000 }

theorem demo_reach0 : Reachable demo_g0 demo_e0 :=
  .created 2 0 1000000000 10 100 1 2 demo_g0 demo_e0 rfl

theorem demo_reach1 : Reachable demo_g1 demo_e1 :=
  .joined demo_g0 demo_e0 1 1000000000 11 200 demo_g1 demo_e1
    (some { game_id := 1, players := [10, 11], total_stake := 2000000000, unlock_ms := 5200 })
    demo_reach0 rfl

theorem demo_reach2 : Reachable demo_g2 demo_e1 :=
  .winner_recorded demo_g1 demo_e1 11 [7] demo_g2 demo_reach1 rfl

theorem demoC_reach1 : Reachable demoC_g1 demoC_e1 :=
  .joined demoC_g0 demoC_e0 1 1000000000 11 200 demoC_g1 demoC_e1 none
    (.created 3 0 1000000000 10 100 5 6 demoC_g0 demoC_e0 rfl) rfl

theorem inv_create {maxp side payment sender now gid eid : Nat}
    {g : FlipGame} {e : GameEscrow}
    (h : create_room maxp side payment sender now gid eid = .ok (g, e)) :
    Inv g e := by
  unfold create_room at h
  split at h
  case isFalse => exact Except.noConfusion h
  case isTrue hcap =>
    split at h
    case isFalse => exact Except.noConfusion h
    case isTrue hside =>
      split at h
      case isFalse => exact Except.noConfusion h
      case isTrue hstake =>
        injection h with h
        injection h with h1 h2
        subst h1; subst h2
        have h2 : 2 ≤ maxp := hcap.1
        refine ⟨rfl, ?_, by simp, by simp, rfl, rfl, by simp, rfl, ?_, ?_, ?_, rfl, hcap, hstake, ?_⟩
        · simp only [List.length_singleton]; omega
        · exact fun _ => ⟨by simp only [List.length_singleton]; omega, rfl⟩
        · intro hh; exact absurd hh (by simp)
        · intro hh; simp at hh
        · intro w hw; simp at hw

theorem inv_join {g : FlipGame} {e : GameEscrow} {side payment sender now : Nat}
    {g' : FlipGame} {e' : GameEscrow} {ev : Option GameFull}
    (ih : Inv g e)
    (h : join_room g e side payment sender now = .ok (g', e', ev)) : Inv g' e' := by
  unfold join_room at h
  by_cases hstart : (g.game_started : Prop)
  · rw [if_pos hstart] at h; exact Except.noConfusion h
  rw [if_neg hstart] at h
  by_cases hfull : g.max_players ≤ g.players.length
  · rw [if_pos hfull] at h; exact Except.noConfusion h
  rw [if_neg hfull] at h
  by_cases hmem : sender ∈ g.players
  · rw [if_pos hmem] at h; exact Except.noConfusion h
  rw [if_neg hmem] at h
  by_cases hpay : payment ≠ g.stake_per_player
  · rw [if_pos hpay] at h; exact Except.noConfusion h
  rw [if_neg hpay] at h
  by_cases hbind : g.id ≠ e.game_id
  · rw [if_pos hbind] at h; exact Except.noConfusion h
  rw [if_neg hbind] at h
  by_cases hside : side ≠ SIDE_HEADS ∧ side ≠ SIDE_TAILS
  · rw [if_pos hside] at h; exact Except.noConfusion h
  rw [if_neg hside] at h
  by_cases hov1 : U64_MOD ≤ g.total_stake + g.stake_per_player
  · rw [if_pos hov1] at h; exact Except.noConfusion h
  rw [if_neg hov1] at h
  by_cases hov2 : U64_MOD ≤ e.funds + payment
  · rw [if_pos hov2] at h; exact Except.noConfusion h
  rw [if_neg hov2] at h
  have hsf : g.game_started = false := by revert hstart; cases g.game_started <;> simp
  have hpay2 : payment = g.stake_per_player := not_not.mp hpay
  have hlt : g.players.length < g.max_players := Nat.lt_of_not_le hfull
  have hw : g.winner = none := by
    cases hwin : g.winner with
    | none => rfl
    | some w =>
        have := ih.winner_started (by simp [hwin])
        rw [hsf] at this; exact Bool.noConfusion this
  have hunlock : g.unlock_ms = 0 := (ih.not_started_lt hsf).2
  have hnodup : (g.players ++ [sender]).Nodup := by
    simp only [List.nodup_append, List.nodup_singleton, List.disjoint_singleton]
    exact ⟨ih.nodup, trivial, hmem⟩
  have htot : g.total_stake + g.stake_per_player =
      g.stake_per_player * (g.players ++ [sender]).length := by
    simp only [List.length_append, List.length_singleton]
    rw [ih.total]; ring
  by_cases hfill : g.players.length + 1 = g.max_players
  · rw [if_pos hfill] at h
    by_cases hov3 : U64_MOD ≤ now + LOCK_DURATION_MS
    · rw [if_pos hov3] at h; exact Except.noConfusion h
    · rw [if_neg hov3] at h
      injection h with h
      injection h with h1 h
      injection h with h2 h3
      subst h1; subst h2; subst h3
      refine ⟨?_, ?_, ?_, htot, ?_, ih.bound, hnodup, ih.not_claimed, ?_, ?_, ?_, ih.winner_blob,
        ih.maxp_range, ih.stake_min, ?_⟩
      · simp [ih.len_eq]
      · simp only [List.length_append, List.length_singleton]; omega
      · simp
      · simp only []; rw [ih.funds, hpay2]
      · intro hh; exact absurd hh (by simp)
      · intro _; simp only [List.length_append, List.length_singleton]; omega
      · intro _; rfl
      · intro w hww; simp only [] at hww; rw [hw] at hww; exact Option.noConfusion hww
  · rw [if_neg hfill] at h
    injection h with h
    injection h with h1 h
    injection h with h2 h3
    subst h1; subst h2; subst h3
    refine ⟨?_, ?_, ?_, htot, ?_, ih.bound, hnodup, ih.not_claimed, ?_, ?_, ?_, ih.winner_blob,
      ih.maxp_range, ih.stake_min, ?_⟩
    · simp [ih.len_eq]
    · simp only [List.length_append, List.length_singleton]; omega
    · simp
    · simp only []; rw [ih.funds, hpay2]
    · intro _
      constructor
      · simp only [List.length_append, List.length_singleton]
        omega
      · exact hunlock
    · intro hh; rw [hsf] at hh; exact Bool.noConfusion hh
    · intro hh; simp only [] at hh; rw [hw] at hh; exact Bool.noConfusion hh
    · intro w hww; simp only [] at hww; rw [hw] at hww; exact Option.noConfusion hww

theorem inv_setw {g : FlipGame} {e : GameEscrow} {w : Nat} {b : List Nat} {g' : FlipGame}
    (ih : Inv g e) (h : set_winner g w b = .ok g') : Inv g' e := by
  unfold set_winner at h
  split at h
  case isTrue => exact Except.noConfusion h
  case isFalse hstart =>
  split at h
  case isTrue => exact Except.noConfusion h
  case isFalse hwin =>
  split at h
  case isTrue => exact Except.noConfusion h
  case isFalse hmem =>
  split at h
  case isTrue => exact Except.noConfusion h
  case isFalse hblen =>
  split at h
  case isTrue => exact Except.noConfusion h
  case isFalse hblob =>
  injection h with h1
  subst h1
  have hst : g.game_started = true := by revert hstart; cases g.game_started <;> simp
  refine ⟨ih.len_eq, ih.len_le, ih.len_pos, ih.total, ih.funds, ih.bound, ih.nodup,
    ih.not_claimed, ?_, ?_, ?_, rfl, ih.maxp_range, ih.stake_min, ?_⟩
  · intro hh; simp only [] at hh; rw [hst] at hh; exact Bool.noConfusion hh
  · intro _; exact ih.started_full hst
  · intro _; exact hst
  · intro w' hw'
    simp only [Option.some.injEq] at hw'
    subst hw'
    exact not_not.mp hmem

theorem inv_of_reachable {g : FlipGame} {e : GameEscrow} (h : Reachable g e) : Inv g e := by
  induction h with
  | created maxp side payment sender now gid eid g e h => exact inv_create h
  | joined g e side payment sender now g' e' ev hr h ih => exact inv_join ih h
  | winner_recorded g e w b g' hr h ih => exact inv_setw ih h

theorem join_room_ok_cases {g : FlipGame} {e : GameEscrow}
    {side payment sender now : Nat} {g' : FlipGame} {e' : GameEscrow}
    {ev : Option GameFull}
    (h : join_room g e side payment sender now = .ok (g', e', ev)) :
    g.game_started = false ∧ sender ∉ g.players ∧
    payment = g.stake_per_player ∧ g.id = e.game_id ∧
    g.players.length < g.max_players ∧
    e' = { e with funds := e.funds + payment } ∧
    ((g.players.length + 1 = g.max_players ∧
       g' = { g with
                players := g.players ++ [sender]
                player_sides := g.player_sides ++ [side]
                total_stake := g.total_stake + g.stake_per_player
                game_started := true
                unlock_ms := now + LOCK_DURATION_MS } ∧
       ev = some { game_id := g.id
                   players := g.players ++ [sender]
                   total_stake := g.total_stake + g.stake_per_player
                   unlock_ms := now + LOCK_DURATION_MS }) ∨
     (g.players.length + 1 ≠ g.max_players ∧
       g' = { g with
                players := g.players ++ [sender]
                player_sides := g.player_sides ++ [side]
                total_stake := g.total_stake + g.stake_per_player } ∧
       ev = none)) := by
  unfold join_room at h
  by_cases hstart : (g.game_started : Prop)
  · rw [if_pos hstart] at h; exact Except.noConfusion h
  rw [if_neg hstart] at h
  by_cases hfull : g.max_players ≤ g.players.length
  · rw [if_pos hfull] at h; exact Except.noConfusion h
  rw [if_neg hfull] at h
  by_cases hmem : sender ∈ g.players
  · rw [if_pos hmem] at h; exact Except.noConfusion h
  rw [if_neg hmem] at h
  by_cases hpay : payment ≠ g.stake_per_player
  · rw [if_pos hpay] at h; exact Except.noConfusion h
  rw [if_neg hpay] at h
  by_cases hbind : g.id ≠ e.game_id
  · rw [if_pos hbind] at h; exact Except.noConfusion h
  rw [if_neg hbind] at h
  by_cases hside : side ≠ SIDE_HEADS ∧ side ≠ SIDE_TAILS
  · rw [if_pos hside] at h; exact Except.noConfusion h
  rw [if_neg hside] at h
  by_cases hov1 : U64_MOD ≤ g.total_stake + g.stake_per_player
  · rw [if_pos hov1] at h; exact Except.noConfusion h
  rw [if_neg hov1] at h
  by_cases hov2 : U64_MOD ≤ e.funds + payment
  · rw [if_pos hov2] at h; exact Except.noConfusion h
  rw [if_neg hov2] at h
  have hsf : g.game_started = false := by revert hstart; cases g.game_started <;> simp
  refine ⟨hsf, hmem, not_not.mp hpay, not_not.mp hbind, Nat.lt_of_not_le hfull, ?_, ?_⟩
  all_goals
    by_cases hfill : g.players.length + 1 = g.max_players
  · rw [if_pos hfill] at h
    by_cases hov3 : U64_MOD ≤ now + LOCK_DURATION_MS
    · rw [if_pos hov3] at h; exact Except.noConfusion h
    · rw [if_neg hov3] at h
      injection h with h
      injection h with h1 h
      injection h with h2 h3
      exact h2.symm
  · rw [if_neg hfill] at h
    injection h with h
    injection h with h1 h
    injection h with h2 h3
    exact h2.symm
  · rw [if_pos hfill] at h
    by_cases hov3 : U64_MOD ≤ now + LOCK_DURATION_MS
    · rw [if_pos hov3] at h; exact Except.noConfusion h
    · rw [if_neg hov3] at h
      injection h with h
      injection h with h1 h
      injection h with h2 h3
      exact Or.inl ⟨hfill, h1.symm, h3.symm⟩
  · rw [if_neg hfill] at h
    injection h with h
    injection h with h1 h
    injection h with h2 h3
    exact Or.inr ⟨hfill, h1.symm, h3.symm⟩

theorem set_winner_ok_cases {g : FlipGame} {w : Nat} {b : List Nat} {g' : FlipGame}
    (h : set_winner g w b = .ok g') :
    g.game_started = true ∧ g.winner = none ∧ w ∈ g.players ∧ b ≠ [] ∧
    g.blob_id = none ∧ g' = { g with winner := some w, blob_id := some b } := by
  unfold set_winner at h
  split at h
  case isTrue => exact Except.noConfusion h
  case isFalse hstart =>
  split at h
  case isTrue => exact Except.noConfusion h
  case isFalse hwin =>
  split at h
  case isTrue => exact Except.noConfusion h
  case isFalse hmem =>
  split at h
  case isTrue => exact Except.noConfusion h
  case isFalse hblen =>
  split at h
  case isTrue => exact Except.noConfusion h
  case isFalse hblob =>
  injection h with h1
  refine ⟨by revert hstart; cases g.game_started <;> simp, ?_, not_not.mp hmem, ?_, ?_, h1.symm⟩
  · revert hwin; cases g.winner <;> simp
  · intro hh; subst hh; exact hblen rfl
  · revert hblob; cases g.blob_id <;> simp

theorem claim_reward_ok_bound {g : FlipGame} {e : GameEscrow} {sender now : Nat}
    {out : ClaimOutcome} (h : claim_reward g e sender now = .ok out) :
    g.id = e.game_id := by
  unfold claim_reward at h
  split at h
  case isTrue => exact Except.noConfusion h
  case isFalse =>
  split at h
  case h_1 => exact Except.noConfusion h
  case h_2 w hw =>
  split at h
  case isTrue => exact Except.noConfusion h
  case isFalse =>
  split at h
  case isTrue => exact Except.noConfusion h
  case isFalse =>
  split at h
  case isTrue => exact Except.noConfusion h
  case isFalse =>
  split at h
  case isTrue => exact Except.noConfusion h
  case isFalse hbind => exact not_not.mp hbind

theorem sum_map_const {α : Type} (l : List α) (c : Nat) :
    (l.map fun _ => c).sum = c * l.length := by
  induction l with
  | nil => simp
  | cons a t ihl => simp [ihl]; ring

theorem refund_loop_ok {players : List Nat} {stake funds : Nat}
    (hne : players ≠ []) (hf : funds = stake * players.length) :
    refund_loop players stake funds = .ok (players.map fun p => (p, stake)) := by
  induction players generalizing funds with
  | nil => exact absurd rfl hne
  | cons p rest ihp =>
    cases rest with
    | nil =>
        unfold refund_loop
        simp only [List.length_cons, List.length_nil] at hf
        simp [hf]
    | cons q more =>
        unfold refund_loop
        have hge : stake ≤ funds := by
          rw [hf]
          have h1 : 1 ≤ (p :: q :: more).length := by simp
          calc stake = stake * 1 := (mul_one stake).symm
            _ ≤ stake * (p :: q :: more).length := Nat.mul_le_mul_left stake h1
        rw [if_neg (not_lt.mpr hge)]
        have hrec : funds - stake = stake * (q :: more).length := by
          rw [hf]
          simp only [List.length_cons]
          have e1 : stake * (more.length + 1 + 1) = stake * (more.length + 1) + stake := by ring
          omega
        rw [ihp (by simp) hrec]
        simp

theorem seal_check_loop_refl (l : List Nat) : seal_check_loop l l = .ok () := by
  induction l with
  | nil => rfl
  | cons a t ihl => unfold seal_check_loop; rw [if_pos rfl]; exact ihl

/-- C1: on every reachable room that has started and has its winner
recorded, `claim_reward` strictly before `unlock_ms` aborts with
`E_TOO_EARLY` whoever the caller is, and at or after `unlock_ms` a
caller other than the recorded winner aborts with `E_NOT_WINNER`; an
abort rolls the transaction back, so room and escrow are unchanged. -/
theorem C1_claim_gating (g : FlipGame) (e : GameEscrow) (hr : Reachable g e)
    (w : Nat) (hw : g.winner = some w) (hs : g.game_started = true)
    (caller now : Nat) :
    (now < g.unlock_ms → claim_reward g e caller now = .error .E_TOO_EARLY) ∧
    (g.unlock_ms ≤ now → caller ≠ w →
       claim_reward g e caller now = .error .E_NOT_WINNER) := by
  have inv := inv_of_reachable hr
  have hns : ¬(g.game_started = false) := by rw [hs]; simp
  have hnc : ¬(g.claimed : Prop) := by rw [inv.not_claimed]; simp
  constructor
  · intro hlt
    unfold claim_reward
    rw [if_neg hns, hw]
    dsimp only
    rw [if_pos hlt]
  · intro hle hner
    unfold claim_reward
    rw [if_neg hns, hw]
    dsimp only
    rw [if_neg (not_lt.mpr hle), if_neg hnc, if_pos hner]

theorem C1_witness :
    claim_reward demo_g2 demo_e1 99 100 = .error .E_TOO_EARLY ∧
    claim_reward demo_g2 demo_e1 10 6000 = .error .E_NOT_WINNER := by
  constructor
  · exact (C1_claim_gating demo_g2 demo_e1 demo_reach2 11 rfl rfl 99 100).1 (by decide)
  · exact (C1_claim_gating demo_g2 demo_e1 demo_reach2 11 rfl rfl 10 6000).2 (by decide) (by decide)

/-- C2: on every reachable started room with winner `w` and clock at or
past `unlock_ms`, `claim_reward` by `w` succeeds, transferring the whole
escrow balance — which equals `total_stake` — to `w` in one transfer,
and consumes (deletes) both the room and the escrow: the `.ok` result
carries only the transfer, neither object survives. Instantiated at
capacity 2 and stake 1_000_000_000 the winner receives 2_000_000_000
(see the witness). -/
theorem C2_winner_claims (g : FlipGame) (e : GameEscrow) (hr : Reachable g e)
    (w : Nat) (hw : g.winner = some w) (hs : g.game_started = true)
    (now : Nat) (ht : g.unlock_ms ≤ now) :
    claim_reward g e w now =
      .ok { recipient := w, paid := e.funds, event_amount := g.total_stake
            claimed_at := now } ∧
    e.funds = g.total_stake := by
  have inv := inv_of_reachable hr
  have hns : ¬(g.game_started = false) := by rw [hs]; simp
  have hnc : ¬(g.claimed : Prop) := by rw [inv.not_claimed]; simp
  refine ⟨?_, inv.funds.trans rfl⟩
  unfold claim_reward
  rw [if_neg hns, hw]
  dsimp only
  rw [if_neg (not_lt.mpr ht), if_neg hnc, if_neg (not_not.mpr rfl),
    if_neg (not_not.mpr inv.bound.symm)]

theorem C2_witness :
    claim_reward demo_g2 demo_e1 11 6000 =
      .ok { recipient := 11, paid := 2000000000, event_amount := 2000000000
            claimed_at := 6000 } :=
  (C2_winner_claims demo_g2 demo_e1 demo_reach2 11 rfl rfl 6000 (by decide)).1

/-- C3: for any reachable room, a successful `join_room` implies the
room was not yet started (`started = false`, `unlock_ms = 0`); if the
join brings the member count to capacity the started flag flips to
true, `unlock_ms` becomes the fill-time clock reading plus
`LOCK_DURATION_MS` (5000 ms) and a `GameFull` event is emitted,
otherwise the flag stays false, `unlock_ms` stays 0 and no event is
emitted. The flag never reverts: every join on a started room aborts
with `E_GAME_STARTED`, and `set_winner` (the only other mutation)
preserves `game_started` and `unlock_ms`. -/
theorem C3_fill_transition (g : FlipGame) (e : GameEscrow) (hr : Reachable g e) :
    (∀ side payment sender now g' e' ev,
        join_room g e side payment sender now = .ok (g', e', ev) →
        g.game_started = false ∧ g.unlock_ms = 0 ∧
        (g'.players.length = g.max_players →
            g'.game_started = true ∧ g'.unlock_ms = now + LOCK_DURATION_MS ∧
            ev = some { game_id := g.id, players := g'.players
                        total_stake := g'.total_stake
                        unlock_ms := now + LOCK_DURATION_MS }) ∧
        (g'.players.length ≠ g.max_players →
            g'.game_started = false ∧ g'.unlock_ms = 0 ∧ ev = none)) ∧
    (g.game_started = true → ∀ side payment sender now,
        join_room g e side payment sender now = .error .E_GAME_STARTED) ∧
    (∀ w b g', set_winner g w b = .ok g' →
        g'.game_started = g.game_started ∧ g'.unlock_ms = g.unlock_ms) := by
  have inv := inv_of_reachable hr
  refine ⟨?_, ?_, ?_⟩
  · intro side payment sender now g' e' ev h
    obtain ⟨hsf, hmem, hpay, hbind, hlt, he', hcase⟩ := join_room_ok_cases h
    refine ⟨hsf, (inv.not_started_lt hsf).2, ?_, ?_⟩
    · intro hfull
      rcases hcase with ⟨hfill, hg', hev⟩ | ⟨hfill, hg', hev⟩
      · subst hg'; subst hev; exact ⟨rfl, rfl, rfl⟩
      · subst hg'
        exact absurd (by simpa using hfull) hfill
    · intro hnfull
      rcases hcase with ⟨hfill, hg', hev⟩ | ⟨hfill, hg', hev⟩
      · subst hg'
        exact absurd (by simpa using hfill) hnfull
      · subst hg'; subst hev
        exact ⟨hsf, (inv.not_started_lt hsf).2, rfl⟩
  · intro hs side payment sender now
    unfold join_room
    rw [if_pos hs]
  · intro w b g' h
    obtain ⟨_, _, _, _, _, hg'⟩ := set_winner_ok_cases h
    subst hg'
    exact ⟨rfl, rfl⟩

theorem C3_witness :
    demo_g0.game_started = false ∧ demo_g0.unlock_ms = 0 ∧
    demo_g1.game_started = true ∧ demo_g1.unlock_ms = 200 + LOCK_DURATION_MS ∧
    join_room demo_g1 demo_e1 0 1000000000 12 300 = .error .E_GAME_STARTED := by
  have h1 := (C3_fill_transition demo_g0 demo_e0 demo_reach0).1 1 1000000000 11 200
      demo_g1 demo_e1
      (some { game_id := 1, players := [10, 11], total_stake := 2000000000, unlock_ms := 5200 })
      rfl
  have h2 := (C3_fill_transition demo_g1 demo_e1 demo_reach1).2.1 rfl 0 1000000000 12 300
  obtain ⟨hsf, hu0, hfillc, _⟩ := h1
  obtain ⟨hst, hu, _⟩ := hfillc (by decide)
  exact ⟨hsf, hu0, hst, hu, h2⟩

/-- C4: in every room state reachable by `create_room` followed by any
sequence of successful operations, the `players` and `player_sides`
lists have equal length bounded by `max_players`, `total_stake` equals
`stake_per_player` times the member count, and while the escrow exists
its balance equals `total_stake`. -/
theorem C4_room_invariants (g : FlipGame) (e : GameEscrow) (hr : Reachable g e) :
    g.players.length = g.player_sides.length ∧
    g.players.length ≤ g.max_players ∧
    g.total_stake = g.stake_per_player * g.players.length ∧
    e.funds = g.total_stake := by
  have inv := inv_of_reachable hr
  exact ⟨inv.len_eq, inv.len_le, inv.total, inv.funds⟩

theorem C4_witness :
    demo_g2.players.length = demo_g2.player_sides.length ∧
    demo_g2.players.length ≤ demo_g2.max_players ∧
    demo_g2.total_stake = demo_g2.stake_per_player * demo_g2.players.length ∧
    demo_e1.funds = demo_g2.total_stake :=
  C4_room_invariants demo_g2 demo_e1 demo_reach2

/-- C5 (amended): a reachable room's `players` list never holds a
duplicate address; on a reachable room that has not yet started, a
`join_room` whose sender is already a member aborts with
`E_ALREADY_JOINED` (room and escrow unchanged), while on a started room
every join — a member's included — aborts with `E_GAME_STARTED`, the
started check coming first in the source. -/
theorem C5_duplicate_join_rejected (g : FlipGame) (e : GameEscrow)
    (hr : Reachable g e) (sender side payment now : Nat) :
    g.players.Nodup ∧
    (g.game_started = false → sender ∈ g.players →
        join_room g e side payment sender now = .error .E_ALREADY_JOINED) ∧
    (g.game_started = true →
        join_room g e side payment sender now = .error .E_GAME_STARTED) := by
  have inv := inv_of_reachable hr
  refine ⟨inv.nodup, ?_, ?_⟩
  · intro hsf hmem
    unfold join_room
    rw [if_neg (show ¬(g.game_started : Prop) by rw [hsf]; simp)]
    rw [if_neg (not_le.mpr (inv.not_started_lt hsf).1)]
    rw [if_pos hmem]
  · intro hs
    unfold join_room
    rw [if_pos hs]

/-- C5 counterexample: `demo_g2` is a reachable, started room and
address 10 is one of its members, yet its repeated join aborts with
`E_GAME_STARTED`, not `E_ALREADY_JOINED` — the claim that a member's
join always fails with `AlreadyJoined` is false once the room has
started. -/
theorem C5_counterexample :
    Reachable demo_g2 demo_e1 ∧
    10 ∈ demo_g2.players ∧
    join_room demo_g2 demo_e1 0 1000000000 10 300 = .error .E_GAME_STARTED ∧
    MoveErr.E_GAME_STARTED ≠ MoveErr.E_ALREADY_JOINED :=
  ⟨demo_reach2, by decide, rfl, by decide⟩

theorem C5_witness :
    demoC_g1.players.Nodup ∧
    join_room demoC_g1 demoC_e1 0 1000000000 11 300 = .error .E_ALREADY_JOINED ∧
    join_room demo_g2 demo_e1 1 1000000000 10 300 = .error .E_GAME_STARTED := by
  have h1 := C5_duplicate_join_rejected demoC_g1 demoC_e1 demoC_reach1 11 0 1000000000 300
  have h2 := C5_duplicate_join_rejected demo_g2 demo_e1 demo_reach2 10 1 1000000000 300
  exact ⟨h1.1, h1.2.1 rfl (by decide), h2.2.2 rfl⟩

theorem map_snd_pair {α : Type} (l : List α) (c : Nat) :
    ((l.map fun p => (p, c)).map Prod.snd) = l.map fun _ => c := by
  induction l with
  | nil => rfl
  | cons a t ihl => simp [ihl]

/-- C6: `set_winner` succeeds at most once per room — success requires
the room started, the winner unset, the winner a member and the blob id
non-empty, and records winner and blob exactly once; a second call on
the resulting room aborts with `E_BLOB_ALREADY_SET`; and the relay of
`startEventListener` puts a room id into its processed set on (or
before) the first successful submission, so a later `GameFull` event for
the same id triggers no further submission attempt. -/
theorem C6_set_winner_once (g : FlipGame) :
    (∀ w b g', set_winner g w b = .ok g' →
        g.game_started = true ∧ g.winner = none ∧ w ∈ g.players ∧ b ≠ [] ∧
        g'.winner = some w ∧ g'.blob_id = some b) ∧
    (∀ w b g' w2 b2, set_winner g w b = .ok g' →
        set_winner g' w2 b2 = .error .E_BLOB_ALREADY_SET) ∧
    (∀ st gid, gid ∈ ((relay_handle_event st gid false true).1).processed ∧
        ∀ ws ok,
          (relay_handle_event (relay_handle_event st gid false true).1 gid ws ok).2
            = false) := by
  refine ⟨?_, ?_, ?_⟩
  · intro w b g' h
    obtain ⟨hs, hwn, hmem, hb, hblob, hg'⟩ := set_winner_ok_cases h
    subst hg'
    exact ⟨hs, hwn, hmem, hb, rfl, rfl⟩
  · intro w b g' w2 b2 h
    obtain ⟨hs, hwn, hmem, hb, hblob, hg'⟩ := set_winner_ok_cases h
    subst hg'
    unfold set_winner
    dsimp only
    rw [if_neg (show ¬(g.game_started = false) by rw [hs]; simp)]
    rfl
  · intro st gid
    constructor
    · by_cases hmem : gid ∈ st.processed
      · simp [relay_handle_event, hmem]
      · simp [relay_handle_event, hmem]
    · intro ws ok
      by_cases hmem : gid ∈ st.processed
      · simp [relay_handle_event, hmem]
      · simp [relay_handle_event, hmem]

theorem C6_witness :
    set_winner demo_g1 11 [7] = .ok demo_g2 ∧
    demo_g2.winner = some 11 ∧ demo_g2.blob_id = some [7] ∧
    set_winner demo_g2 12 [8] = .error .E_BLOB_ALREADY_SET ∧
    1 ∈ ((relay_handle_event { processed := [] } 1 false true).1).processed ∧
    (relay_handle_event (relay_handle_event { processed := [] } 1 false true).1
        1 false true).2 = false := by
  have h1 := (C6_set_winner_once demo_g1).1 11 [7] demo_g2 rfl
  have h2 := (C6_set_winner_once demo_g1).2.1 11 [7] demo_g2 12 [8] rfl
  have h3 := (C6_set_winner_once demo_g1).2.2 { processed := [] } 1
  exact ⟨rfl, h1.2.2.2.2.1, h1.2.2.2.2.2, h2, h3.1, h3.2 false true⟩

/-- C7 (amended): on a reachable started room `cancel_room` always
aborts — with `E_GAME_STARTED` when the caller is the creator, and with
`E_NOT_CREATOR` otherwise, the creator check coming first in the
source; on a reachable room before start, a cancel by the creator
succeeds, refunds exactly `stake_per_player` to every member (the last
member receiving the residual escrow balance, which equals
`stake_per_player`), leaves no residual funds (the transfers sum to the
whole escrow balance), and consumes (deletes) both Room and Escrow. -/
theorem C7_cancel_behaviour (g : FlipGame) (e : GameEscrow) (hr : Reachable g e) :
    (g.game_started = true → ∀ sender, cancel_room g e sender =
        .error (if sender = g.creator then .E_GAME_STARTED else .E_NOT_CREATOR)) ∧
    (g.game_started = false →
        cancel_room g e g.creator =
          .ok (g.players.map fun p => (p, g.stake_per_player)) ∧
        ((g.players.map fun p => (p, g.stake_per_player)).map Prod.snd).sum
          = e.funds) := by
  have inv := inv_of_reachable hr
  constructor
  · intro hs sender
    unfold cancel_room
    by_cases hc : sender = g.creator
    · rw [if_neg (not_not.mpr hc), if_pos hs, if_pos hc]
    · rw [if_pos hc, if_neg hc]
  · intro hsf
    have hne : g.players ≠ [] := by
      have hpos := inv.len_pos
      intro hnil; rw [hnil] at hpos; simp at hpos
    have hf : e.funds = g.stake_per_player * g.players.length := by
      rw [inv.funds, inv.total]
    constructor
    · unfold cancel_room
      rw [if_neg (not_not.mpr rfl)]
      rw [if_neg (show ¬(g.game_started : Prop) by rw [hsf]; simp)]
      exact refund_loop_ok hne hf
    · rw [map_snd_pair, sum_map_const]
      exact hf.symm

/-- C7 counterexample: `demo_g2` is reachable and started, yet a
`cancel_room` by the non-creator address 99 aborts with
`E_NOT_CREATOR`, not `E_GAME_STARTED` — the creator check runs first,
so after start the abort reason is not always `RoomAlreadyStarted`. -/
theorem C7_counterexample :
    Reachable demo_g2 demo_e1 ∧ demo_g2.game_started = true ∧
    cancel_room demo_g2 demo_e1 99 = .error .E_NOT_CREATOR ∧
    MoveErr.E_NOT_CREATOR ≠ MoveErr.E_GAME_STARTED :=
  ⟨demo_reach2, rfl, rfl, by decide⟩

theorem C7_witness :
    cancel_room demoC_g1 demoC_e1 10 = .ok [(10, 1000000000), (11, 1000000000)] ∧
    cancel_room demo_g2 demo_e1 10 = .error .E_GAME_STARTED := by
  have h1 := (C7_cancel_behaviour demoC_g1 demoC_e1 demoC_reach1).2 rfl
  have h2 := (C7_cancel_behaviour demo_g2 demo_e1 demo_reach2).1 rfl 10
  exact ⟨h1.1, h2⟩

/-- C8 (amended): a `create_room` with `2 ≤ capacity ≤ 10`, a valid
side and `stake ≥ MIN_STAKE_AMOUNT` succeeds and produces a waiting
room whose members list is exactly the creator with the creator's side
as sole choice and an escrow holding the stake; a bad capacity aborts
with `E_INVALID_MAX_PLAYERS`, an invalid side with `E_WRONG_AMOUNT`
(not one of the two errors the claim names), and a too-small stake with
`E_MIN_STAKE`, checked in that order. -/
theorem C8_create_room (maxp side payment sender now gid eid : Nat) :
    (∀ g e, create_room maxp side payment sender now gid eid = .ok (g, e) →
        g.players = [sender] ∧ g.player_sides = [side] ∧ g.creator = sender ∧
        g.game_started = false ∧ g.unlock_ms = 0 ∧ g.stake_per_player = payment ∧
        e.funds = payment ∧ e.game_id = g.id) ∧
    ((MIN_PLAYERS ≤ maxp ∧ maxp ≤ MAX_PLAYERS) →
        (side = SIDE_HEADS ∨ side = SIDE_TAILS) → MIN_STAKE_AMOUNT ≤ payment →
        ∃ g e, create_room maxp side payment sender now gid eid = .ok (g, e)) ∧
    (¬(MIN_PLAYERS ≤ maxp ∧ maxp ≤ MAX_PLAYERS) →
        create_room maxp side payment sender now gid eid
          = .error .E_INVALID_MAX_PLAYERS) ∧
    ((MIN_PLAYERS ≤ maxp ∧ maxp ≤ MAX_PLAYERS) →
        ¬(side = SIDE_HEADS ∨ side = SIDE_TAILS) →
        create_room maxp side payment sender now gid eid
          = .error .E_WRONG_AMOUNT) ∧
    ((MIN_PLAYERS ≤ maxp ∧ maxp ≤ MAX_PLAYERS) →
        (side = SIDE_HEADS ∨ side = SIDE_TAILS) → payment < MIN_STAKE_AMOUNT →
        create_room maxp side payment sender now gid eid
          = .error .E_MIN_STAKE) := by
  refine ⟨?_, ?_, ?_, ?_, ?_⟩
  · intro g e h
    unfold create_room at h
    split at h
    case isFalse => exact Except.noConfusion h
    case isTrue hcap =>
    split at h
    case isFalse => exact Except.noConfusion h
    case isTrue hside =>
    split at h
    case isFalse => exact Except.noConfusion h
    case isTrue hstake =>
    injection h with h
    injection h with h1 h2
    subst h1; subst h2
    exact ⟨rfl, rfl, rfl, rfl, rfl, rfl, rfl, rfl⟩
  · intro hcap hside hstake
    refine ⟨{ id := gid, creator := sender, max_players := maxp, players := [sender]
              player_sides := [side], stake_per_player := payment
              total_stake := payment, unlock_ms := 0, blob_id := none
              winner := none, game_started := false, claimed := false
              created_at := now },
            { id := eid, game_id := gid, funds := payment }, ?_⟩
    unfold create_room
    rw [if_pos hcap, if_pos hside, if_pos hstake]
  · intro hcap
    unfold create_room
    rw [if_neg hcap]
  · intro hcap hside
    unfold create_room
    rw [if_pos hcap, if_neg hside]
  · intro hcap hside hstake
    unfold create_room
    rw [if_pos hcap, if_pos hside, if_neg (not_le.mpr hstake)]

/-- C8 counterexample: side 2 is invalid, capacity and stake are fine,
and the abort reason is `E_WRONG_AMOUNT` — neither
`E_INVALID_MAX_PLAYERS` (InvalidCapacity) nor `E_MIN_STAKE`
(BelowMinimumStake), so "fails with InvalidCapacity or
BelowMinimumStake on any violated constraint" is false. -/
theorem C8_counterexample :
    create_room 2 2 1000000 10 100 1 2 = .error .E_WRONG_AMOUNT ∧
    MoveErr.E_WRONG_AMOUNT ≠ MoveErr.E_INVALID_MAX_PLAYERS ∧
    MoveErr.E_WRONG_AMOUNT ≠ MoveErr.E_MIN_STAKE :=
  ⟨rfl, by decide, by decide⟩

theorem C8_witness :
    demo_g0.players = [10] ∧ demo_g0.player_sides = [0] ∧
    demo_e0.funds = 1000000000 ∧
    create_room 1 0 1000000 10 100 1 2 = .error .E_INVALID_MAX_PLAYERS ∧
    create_room 2 0 999999 10 100 1 2 = .error .E_MIN_STAKE := by
  have h1 := (C8_create_room 2 0 1000000000 10 100 1 2).1 demo_g0 demo_e0 rfl
  have h3 := (C8_create_room 1 0 1000000 10 100 1 2).2.2.1 (by decide)
  have h4 := (C8_create_room 2 0 999999 10 100 1 2).2.2.2.2 (by decide) (by decide)
      (by decide)
  exact ⟨h1.1, h1.2.1, h1.2.2.2.2.2.2.1, h3, h4⟩

/-- C9: `seal_approve` is a pure predicate over its inputs (it takes
the room immutably and returns no state): for every identity byte
string whose suffix is the BCS serialization of the room's `unlock_ms`,
it accepts exactly when the clock reading is at or past `unlock_ms`,
and rejects with `E_TOO_EARLY` when the clock is strictly earlier. -/
theorem C9_seal_timelock_gate (pre : List Nat) (g : FlipGame) (now : Nat) :
    seal_approve (pre ++ bcs_u64 g.unlock_ms) g now =
      if now < g.unlock_ms then .error .E_TOO_EARLY else .ok () := by
  unfold seal_approve
  have hlen8 : (bcs_u64 g.unlock_ms).length = 8 := rfl
  have hlen : (pre ++ bcs_u64 g.unlock_ms).length = pre.length + 8 := by
    rw [List.length_append, hlen8]
  rw [if_neg (show ¬((pre ++ bcs_u64 g.unlock_ms).length
      < (bcs_u64 g.unlock_ms).length) by rw [hlen, hlen8]; omega)]
  rw [show (pre ++ bcs_u64 g.unlock_ms).length - (bcs_u64 g.unlock_ms).length
      = pre.length by rw [hlen, hlen8]; omega]
  rw [List.drop_left]
  rw [seal_check_loop_refl]

/-- C10: both `join_room` and `claim_reward` abort whenever the escrow
passed in is not the one bound to the room (`escrow.game_id` differs
from the room's id), whatever the other arguments are — so funds can
never be deposited into or withdrawn from a different room's escrow. -/
theorem C10_escrow_room_binding (g : FlipGame) (e : GameEscrow)
    (hne : e.game_id ≠ g.id) :
    (∀ side payment sender now, ∃ err,
        join_room g e side payment sender now = .error err) ∧
    (∀ sender now, ∃ err, claim_reward g e sender now = .error err) := by
  constructor
  · intro side payment sender now
    cases hres : join_room g e side payment sender now with
    | error err => exact ⟨err, rfl⟩
    | ok res =>
        rcases res with ⟨g', e', ev⟩
        obtain ⟨_, _, _, hbind, _⟩ := join_room_ok_cases hres
        exact absurd hbind.symm hne
  · intro sender now
    cases hres : claim_reward g e sender now with
    | error err => exact ⟨err, rfl⟩
    | ok out => exact absurd (claim_reward_ok_bound hres).symm hne

theorem C10_witness :
    (∃ err, join_room demo_g0 demoC_e0 0 1000000000 11 200 = .error err) ∧
    (∃ err, claim_reward demo_g0 demoC_e0 10 100 = .error err) := by
  have hbind := C10_escrow_room_binding demo_g0 demoC_e0 (by decide)
  exact ⟨hbind.1 0 1000000000 11 200, hbind.2 10 100⟩

end Game
